import Mathlib

/-!
Shallow embedding of the user-management core of `go-web-mini`
(`controller/user_controller.go`, embedded from `src/unnamed/part_000`, and
`repository/user_repository.go`).

Modelling conventions:
  * Go structs become Lean structures; `uint` fields become `Nat`, the `[]int`
    slices fed to `funk.MinInt` become `List Int` (the Go code casts
    `int(role.Sort)` into them).
  * The GORM database is a `List User` in table order; the `go-cache` identity
    cache is an association list from username to `User` (most recent entry
    first).  TTL expiry is not modelled: no claim depends on time.
  * Environmental database failures (connection loss, duplicate keys) are not
    modelled: store writes succeed.  `First` returning `ErrRecordNotFound`
    is modelled, since the code branches on it.
  * bcrypt is opaque in the source (`util.GenPasswd` / `util.ComparePasswd`),
    so it is passed in as a `Crypto` record of two opaque functions.
  * A Go `panic` (the `.(int)` type assertion on the `nil` that
    `funk.MinInt` returns for an empty slice, and the `panic("implement me")`
    stub) is a dedicated `Resp.panicked` outcome.
-/

namespace GoWebMini

/-- `model.Role`: id, sort rank (lower = more privileged), status (1 = enabled). -/
structure Role where
  id : Nat
  sort : Int
  status : Nat
  deriving DecidableEq

/-- `model.User`: identity record with its preloaded roles.  `createdAt`
models the `created_at` timestamp used for ordering in `GetUsers`. -/
structure User where
  id : Nat
  username : String
  password : String
  mobile : String
  avatar : String
  nickname : String
  introduction : String
  status : Nat
  creator : String
  roles : List Role
  createdAt : Nat
  deriving DecidableEq

/-- The Go zero value of `model.User` (what `var user model.User` starts as). -/
def zeroUser : User :=
  { id := 0, username := "", password := "", mobile := "", avatar := "",
    nickname := "", introduction := "", status := 0, creator := "",
    roles := [], createdAt := 0 }

/-- The `go-cache` identity cache keyed by username: association list,
most recently written entry first. -/
abbrev Cache := List (String × User)

/-- `userInfoCache.Get`: first entry with the given key. -/
def cacheGet (c : Cache) (k : String) : Option User :=
  (c.find? (fun e => e.fst == k)).map Prod.snd

/-- `userInfoCache.Set`: insert or overwrite the entry for `k`. -/
def cacheSet (c : Cache) (k : String) (v : User) : Cache :=
  (k, v) :: c.filter (fun e => e.fst != k)

/-- World state threaded through the repository: the `users` table in table
order and the identity cache. -/
structure St where
  db : List User
  cache : Cache
  deriving DecidableEq

/-- The opaque credential primitives `util.GenPasswd` / `util.ComparePasswd`
(bcrypt in the source).  `comparePasswd digest plain` is `true` when the
comparison succeeds (the Go function returns a nil error). -/
structure Crypto where
  genPasswd : String → String
  comparePasswd : String → String → Bool

/-- `funk.MinInt` from thoas/go-funk: minimum of the slice, `none` (Go `nil`)
when the slice is empty.  The controller's `.(int)` assertion on that `nil`
is what panics. -/
def funkMinInt (l : List Int) : Option Int :=
  match l with
  | [] => none
  | x :: xs => some (xs.foldl min x)

/-- `funk.Difference x y`: the elements of `x` not contained in `y`, and the
elements of `y` not contained in `x` (duplicates preserved). -/
def funkDifference (x y : List Nat) : List Nat × List Nat :=
  (x.filter (fun a => decide (a ∉ y)), y.filter (fun b => decide (b ∉ x)))

/-- Controller / repository outcome: a success or failure response, a Go
panic, or no response at all (the empty controller stub). -/
inductive Resp where
  | success (msg : String)
  | fail (msg : String)
  | panicked (msg : String)
  | silent
  deriving DecidableEq

/-- The typed login errors of `UserRepository.Login` (the Go code returns
them as `errors.New` values with fixed messages). -/
inductive LoginErr where
  | userNotFound
  | userDisabled
  | allRolesDisabled
  | wrongPassword
  deriving DecidableEq

/-- `UserRepository.Login`: look up by username only, check status, check
that some role is enabled, then compare the digest.  On a wrong password the
resolved record is still returned alongside the error. -/
def Login (crypto : Crypto) (db : List User) (user : User) :
    Option User × Option LoginErr :=
  match db.find? (fun u => u.username == user.username) with
  | none => (none, some .userNotFound)
  | some firstUser =>
    if firstUser.status ≠ 1 then
      (none, some .userDisabled)
    else if ¬ (firstUser.roles.any (fun r => r.status == 1)) then
      (none, some .allRolesDisabled)
    else if ¬ crypto.comparePasswd firstUser.password user.password then
      (some firstUser, some .wrongPassword)
    else
      (some firstUser, none)

/-- `UserRepository.GetUserById`: query `id = ? AND status = 1` with roles
preloaded; on a miss the `user` variable keeps its zero value and the error
is returned — and the cache is written unconditionally, keyed by the (then
empty) username of the fetched record. -/
def GetUserById (st : St) (id : Nat) : (User × Option String) × St :=
  let found := st.db.find? (fun u => u.id == id && u.status == 1)
  let user := found.getD zeroUser
  let err : Option String := if found.isSome then none else some "record not found"
  ((user, err), { st with cache := cacheSet st.cache user.username user })

/-- `UserRepository.GetCurrentUser`: read the `user` value from the request
context; prefer the cache entry for its username; on a miss fall back to
`GetUserById` (which populates the cache).  `none` models an absent context
value, for which the Go code returns the zero user. -/
def GetCurrentUser (st : St) (ctxUser : Option User) : User × St :=
  match ctxUser with
  | none => (zeroUser, st)
  | some u =>
    match cacheGet st.cache u.username with
    | some cu => (cu, st)
    | none =>
      let r := GetUserById st u.id
      (r.1.1, r.2)

/-- `UserRepository.ChangePwd`: update the password column for the username,
then synchronously refresh the cache entry: patch the cached record when one
exists, otherwise re-query the (already updated) table by username — without
role preload, so the refetched record has empty roles — and cache that. -/
def repoChangePwd (st : St) (username : String) (hashNewPasswd : String) :
    Option String × St :=
  let db' := st.db.map (fun u =>
    if u.username == username then { u with password := hashNewPasswd } else u)
  match cacheGet st.cache username with
  | some user =>
    (none, { db := db',
             cache := cacheSet st.cache username { user with password := hashNewPasswd } })
  | none =>
    let user := match db'.find? (fun u => u.username == username) with
      | some u => { u with roles := [] }
      | none => zeroUser
    (none, { db := db', cache := cacheSet st.cache username user })

/-- GORM `Updates` with a struct: only fields holding a non-zero Go value are
written.  The id and the creation timestamp are never overwritten here; the
many-to-many role association is modelled by the same non-zero rule. -/
def applyUpdates (u : User) (upd : User) : User :=
  { u with
    username := if upd.username ≠ "" then upd.username else u.username,
    password := if upd.password ≠ "" then upd.password else u.password,
    mobile := if upd.mobile ≠ "" then upd.mobile else u.mobile,
    avatar := if upd.avatar ≠ "" then upd.avatar else u.avatar,
    nickname := if upd.nickname ≠ "" then upd.nickname else u.nickname,
    introduction := if upd.introduction ≠ "" then upd.introduction else u.introduction,
    status := if upd.status ≠ 0 then upd.status else u.status,
    creator := if upd.creator ≠ "" then upd.creator else u.creator,
    roles := if upd.roles ≠ [] then upd.roles else u.roles }

/-- `UserRepository.UpdateUserById`: sparse update of the row with the given
id. -/
def repoUpdateUserById (st : St) (id : Nat) (user : User) : St :=
  { st with db := st.db.map (fun u => if u.id == id then applyUpdates u user else u) }

/-- `UserRepository.CreateUser`: `DB.Create` appends the row. -/
def repoCreateUser (st : St) (user : User) : St :=
  { st with db := st.db ++ [user] }

/-- `UserRepository.BatchDeleteUserByIds`: `panic("implement me")`. -/
def repoBatchDeleteUserByIds (_ids : List String) : Resp :=
  .panicked "implement me"

/-- `UserController.BatchDeleteUserByIds`: an empty body — it neither calls
the repository nor writes any response. -/
def ctrlBatchDeleteUserByIds (st : St) : Resp × St :=
  (.silent, st)

/-- `UserController.ChangePwd` (after binding/validation): resolve the actor
via `GetCurrentUser`, compare the submitted old password against that
record's digest, and on success delegate to the repository. -/
def ctrlChangePwd (crypto : Crypto) (st : St) (ctxUser : Option User)
    (oldPassword : String) (newPassword : String) : Resp × St :=
  let res := GetCurrentUser st ctxUser
  let user := res.1
  let st1 := res.2
  let correctPasswd := user.password
  if ¬ crypto.comparePasswd correctPasswd oldPassword then
    (.fail "原密码有误", st1)
  else
    let r := repoChangePwd st1 user.username (crypto.genPasswd newPassword)
    match r.1 with
    | some e => (.fail ("修改密码失败: " ++ e), r.2)
    | none => (.success "修改密码成功", r.2)

/-- `vo.CreateUserRequest` as used by the controller (binding and validator
checks are upstream collaborators and not modelled). -/
structure CreateUserRequest where
  username : String
  password : String
  mobile : String
  avatar : String
  nickname : String
  introduction : String
  status : Nat
  roleIds : List Nat
  deriving DecidableEq

/-- `UserController.CreateUser` (after binding/validation).  `rolesRes` is
the outcome of `RoleRepository.GetRolesByIds` on `req.roleIds`: the role
repository lives outside the two embedded files, so the resolved role list
(or its error) is an input.  The row id and timestamp assigned by the
database are modelled as zero. -/
def ctrlCreateUser (crypto : Crypto) (st : St) (ctxUser0 : Option User)
    (req : CreateUserRequest) (rolesRes : Except String (List Role)) : Resp × St :=
  let res := GetCurrentUser st ctxUser0
  let ctxUser := res.1
  let st1 := res.2
  let currentRoleSorts := ctxUser.roles.map (fun r => r.sort)
  match funkMinInt currentRoleSorts with
  | none => (.panicked "interface conversion: interface is nil, not int", st1)
  | some currentRoleSortMin =>
    match rolesRes with
    | .error e => (.fail ("根据角色ID查询角色信息失败: " ++ e), st1)
    | .ok roles =>
      let reqRoleSorts := roles.map (fun r => r.sort)
      match funkMinInt reqRoleSorts with
      | none => (.panicked "interface conversion: interface is nil, not int", st1)
      | some reqRoleSortMin =>
        if currentRoleSortMin ≥ reqRoleSortMin then
          (.fail "用户不能创建比自己等级高的或者相同等级的用户", st1)
        else
          let password := if req.password = "" then "123456" else req.password
          let user : User :=
            { id := 0, username := req.username,
              password := crypto.genPasswd password, mobile := req.mobile,
              avatar := req.avatar, nickname := req.nickname,
              introduction := req.introduction, status := req.status,
              creator := ctxUser.username, roles := roles, createdAt := 0 }
          (.success "创建用户成功", repoCreateUser st1 user)

/-- `UserController.UpdateUserById` (after binding/validation).  `userId` is
the result of `strconv.Atoi` on the path parameter (parse errors leave it 0,
caught by the `≤ 0` check).  `rolesRes` as in `ctrlCreateUser`. -/
def ctrlUpdateUserById (crypto : Crypto) (st : St) (userId : Int)
    (ctxUser0 : Option User) (req : CreateUserRequest)
    (rolesRes : Except String (List Role)) : Resp × St :=
  if userId ≤ 0 then (.fail "用户ID不正确", st)
  else
    let res := GetCurrentUser st ctxUser0
    let ctxUser := res.1
    let st1 := res.2
    let currentRoleSorts := ctxUser.roles.map (fun r => r.sort)
    let currentRoleIds := ctxUser.roles.map (fun r => r.id)
    match funkMinInt currentRoleSorts with
    | none => (.panicked "interface conversion: interface is nil, not int", st1)
    | some currentRoleSortMin =>
      match rolesRes with
      | .error e => (.fail ("根据角色ID查询角色信息失败: " ++ e), st1)
      | .ok roles =>
        let reqRoleSorts := roles.map (fun r => r.sort)
        match funkMinInt reqRoleSorts with
        | none => (.panicked "interface conversion: interface is nil, not int", st1)
        | some reqRoleSortMin =>
          let user : User :=
            { id := 0, username := req.username, password := "",
              mobile := req.mobile, avatar := req.avatar,
              nickname := req.nickname, introduction := req.introduction,
              status := req.status, creator := ctxUser.username,
              roles := roles, createdAt := 0 }
          if userId = (ctxUser.id : Int) then
            -- self branch
            if req.status = 2 then (.fail "不能禁用自己", st1)
            else
              let d := funkDifference req.roleIds currentRoleIds
              if d.1.length > 0 ∨ d.2.length > 0 then
                (.fail "不能更改自己的角色", st1)
              else if req.password ≠ "" then
                (.fail "请到个人中心修改自身密码", st1)
              else
                let user := { user with password := ctxUser.password }
                let st2 := repoUpdateUserById st1 userId.toNat user
                let st3 := (GetUserById st2 userId.toNat).2
                (.success "修改用户成功", st3)
          else
            -- other-user branch
            if currentRoleSortMin ≥ reqRoleSortMin then
              (.fail "用户不能修改比自己等级高的或者相同等级的用户", st1)
            else
              let user := { user with password := crypto.genPasswd req.password }
              let st2 := repoUpdateUserById st1 userId.toNat user
              (.success "修改用户成功", st2)

/-- `vo.UserListRequest` as used by `GetUsers` (the numeric fields are Go
unsigned integers, converted with `int(...)` before the `> 0` tests). -/
structure UserListRequest where
  username : String
  nickname : String
  mobile : String
  status : Nat
  pageNum : Nat
  pageSize : Nat
  deriving DecidableEq

/-- Go `strings.TrimSpace`, modelled over the character list: drop
whitespace from both ends. -/
def strTrimSpace (s : String) : String :=
  ⟨((s.data.dropWhile Char.isWhitespace).reverse.dropWhile Char.isWhitespace).reverse⟩

/-- One row passes the chain of `Where` clauses of `GetUsers`: substring
match (`LIKE %s%`) for each string filter that is non-empty after trimming,
equality for a non-zero status; absent or zero filters are skipped. -/
def userMatches (req : UserListRequest) (u : User) : Bool :=
  (strTrimSpace req.username == ""
    || decide ((strTrimSpace req.username).data <:+: u.username.data)) &&
  (strTrimSpace req.nickname == ""
    || decide ((strTrimSpace req.nickname).data <:+: u.nickname.data)) &&
  (strTrimSpace req.mobile == ""
    || decide ((strTrimSpace req.mobile).data <:+: u.mobile.data)) &&
  (req.status == 0 || u.status == req.status)

/-- The `ORDER BY created_at DESC` relation. -/
def byCreatedDesc (a b : User) : Prop := b.createdAt ≤ a.createdAt

instance : DecidableRel byCreatedDesc := fun a b => Nat.decLe b.createdAt a.createdAt

instance : IsTotal User byCreatedDesc :=
  ⟨fun a b => Nat.le_total b.createdAt a.createdAt⟩

instance : IsTrans User byCreatedDesc :=
  ⟨fun _ _ _ hab hbc => Nat.le_trans hbc hab⟩

/-- `ORDER BY created_at DESC` as a deterministic (stable) sort. -/
def sortByCreatedDesc (l : List User) : List User :=
  List.insertionSort byCreatedDesc l

/-- `UserRepository.GetUsers`: filter, count the filtered rows as `total`,
then fetch — with `OFFSET (pageNum-1)*pageSize LIMIT pageSize` only when
both are positive, otherwise the whole filtered set. -/
def GetUsers (db : List User) (req : UserListRequest) : List User × Nat :=
  let filtered := db.filter (userMatches req)
  let total := filtered.length
  let sorted := sortByCreatedDesc filtered
  let pageNum := req.pageNum
  let pageSize := req.pageSize
  if 0 < pageNum ∧ 0 < pageSize then
    ((sorted.drop ((pageNum - 1) * pageSize)).take pageSize, total)
  else
    (sorted, total)

/-! ### Concrete fixtures used by witnesses and counterexamples -/

/-- A concrete credential primitive for witnesses: hashing prefixes `#`,
comparison checks that shape. -/
def cryptoW : Crypto :=
  { genPasswd := fun p => "#" ++ p, comparePasswd := fun d p => d == "#" ++ p }

def roleHigh : Role := { id := 1, sort := 1, status := 1 }

def roleMid : Role := { id := 2, sort := 5, status := 1 }

def roleLow : Role := { id := 3, sort := 6, status := 1 }

def aliceW : User :=
  { zeroUser with
    id := 1, username := "alice", password := "#a", status := 1,
    roles := [roleHigh] }

def bobW : User :=
  { zeroUser with
    id := 2, username := "bob", password := "#b", status := 1,
    roles := [roleMid], nickname := "old" }

def st0W : St := { db := [aliceW, bobW], cache := [("alice", aliceW), ("bob", bobW)] }

def stMissW : St := { db := [aliceW, bobW], cache := [] }

def aliceStaleW : User := { aliceW with password := "#old" }

def stStaleW : St := { db := [aliceW, bobW], cache := [("alice", aliceStaleW)] }

def norolesW : User := { zeroUser with id := 9, username := "nr", status := 1 }

def stNRW : St := { db := [norolesW], cache := [("nr", norolesW)] }

def reqCW : CreateUserRequest :=
  { username := "carol", password := "", mobile := "", avatar := "",
    nickname := "", introduction := "", status := 1, roleIds := [3] }

def reqBobW : CreateUserRequest :=
  { username := "bob", password := "p", mobile := "", avatar := "",
    nickname := "new", introduction := "", status := 0, roleIds := [2] }

def reqSelfW : CreateUserRequest :=
  { username := "alice", password := "", mobile := "", avatar := "",
    nickname := "nn", introduction := "", status := 1, roleIds := [1] }

/-- The row `reqSelfW` leaves behind after alice's sparse self-update. -/
def aliceUpdatedW : User := { aliceW with nickname := "nn", creator := "alice" }

/-- A minimal enabled row for the list-query fixtures. -/
def listUser (n : String) (t : Nat) : User :=
  { zeroUser with username := n, status := 1, createdAt := t }

def dbListW : List User :=
  [listUser "u1" 1, listUser "u2" 4, listUser "u3" 2, listUser "u4" 3]

def reqListW : UserListRequest :=
  { username := " u ", nickname := "", mobile := "", status := 0,
    pageNum := 2, pageSize := 1 }

/-! ### Helper lemmas -/

theorem getUserById_db (st : St) (i : Nat) : (GetUserById st i).2.db = st.db := rfl

theorem getCurrentUser_db (st : St) (c : Option User) :
    (GetCurrentUser st c).2.db = st.db := by
  cases c with
  | none => rfl
  | some u =>
    unfold GetCurrentUser
    cases h : cacheGet st.cache u.username <;> simp [h, getUserById_db]

theorem cacheGet_cacheSet_self (c : Cache) (k : String) (v : User) :
    cacheGet (cacheSet c k v) k = some v := by
  simp [cacheGet, cacheSet, List.find?]

/-! ### Claims -/

/-- C1: for an actor resolving to `actor` whose role-rank minimum is `a` and
a requested role set with rank minimum `t`, with a target distinct from the
actor, both `CreateUser` and `UpdateUserById` reject with the
insufficient-privilege error and leave the store untouched whenever
`t ≤ a`, and the hierarchy check passes (the operations run to success)
whenever `a < t`. -/
theorem C1_hierarchy_guard (crypto : Crypto) (st : St) (ctxUser0 : Option User)
    (actor : User) (st1 : St) (req : CreateUserRequest) (roles : List Role)
    (a t : Int) (userId : Int)
    (hres : GetCurrentUser st ctxUser0 = (actor, st1))
    (ha : funkMinInt (actor.roles.map (fun r => r.sort)) = some a)
    (ht : funkMinInt (roles.map (fun r => r.sort)) = some t)
    (hid : 0 < userId) (hne : userId ≠ (actor.id : Int)) :
    (t ≤ a →
      ctrlCreateUser crypto st ctxUser0 req (.ok roles)
        = (.fail "用户不能创建比自己等级高的或者相同等级的用户", st1)
      ∧ ctrlUpdateUserById crypto st userId ctxUser0 req (.ok roles)
        = (.fail "用户不能修改比自己等级高的或者相同等级的用户", st1)
      ∧ st1.db = st.db)
    ∧ (a < t →
      (ctrlCreateUser crypto st ctxUser0 req (.ok roles)).1 = .success "创建用户成功"
      ∧ (ctrlUpdateUserById crypto st userId ctxUser0 req (.ok roles)).1
          = .success "修改用户成功") := by
  have hdb : st1.db = st.db := by
    have := getCurrentUser_db st ctxUser0
    rw [hres] at this
    exact this
  constructor
  · intro hle
    refine ⟨?_, ?_, hdb⟩
    · simp only [ctrlCreateUser, hres, ha, ht]
      rw [if_pos hle]
    · simp only [ctrlUpdateUserById]
      rw [if_neg (by omega)]
      simp only [hres, ha, ht]
      rw [if_neg hne, if_pos hle]
  · intro hlt
    constructor
    · simp only [ctrlCreateUser, hres, ha, ht]
      rw [if_neg (by omega)]
    · simp only [ctrlUpdateUserById]
      rw [if_neg (by omega)]
      simp only [hres, ha, ht]
      rw [if_neg hne, if_neg (by omega)]

/-- C1 witness: a concrete actor of minimum rank 5 is rejected when
assigning a role set of minimum rank 5, for create and for update of a
different user. -/
theorem C1_hierarchy_guard_witness :
    ctrlCreateUser cryptoW st0W (some bobW) reqCW (.ok [roleMid])
      = (.fail "用户不能创建比自己等级高的或者相同等级的用户", st0W)
    ∧ ctrlUpdateUserById cryptoW st0W 1 (some bobW) reqCW (.ok [roleMid])
      = (.fail "用户不能修改比自己等级高的或者相同等级的用户", st0W) := by
  have h := C1_hierarchy_guard cryptoW st0W (some bobW) bobW st0W reqCW
    [roleMid] 5 5 1 rfl rfl rfl (by decide) (by decide)
  exact ⟨(h.1 (by decide)).1, (h.1 (by decide)).2.1⟩

/-- C2: contrary to the claim, an empty role set does not produce a typed
EmptyRoleSet failure — `funk.MinInt` returns Go `nil` on an empty slice and
the controller's `.(int)` type assertion panics, on both the actor side and
the requested side, for create and for update. -/
theorem C2_empty_roleset_panics :
    (ctrlCreateUser cryptoW stNRW (some norolesW) reqCW (.ok [roleLow])).1
      = .panicked "interface conversion: interface is nil, not int"
    ∧ (ctrlCreateUser cryptoW st0W (some aliceW) reqCW (.ok [])).1
      = .panicked "interface conversion: interface is nil, not int"
    ∧ (ctrlUpdateUserById cryptoW stNRW 2 (some norolesW) reqCW (.ok [roleLow])).1
      = .panicked "interface conversion: interface is nil, not int"
    ∧ (ctrlUpdateUserById cryptoW st0W 2 (some aliceW) reqCW (.ok [])).1
      = .panicked "interface conversion: interface is nil, not int" :=
  ⟨rfl, rfl, rfl, rfl⟩

/-- A non-empty symmetric difference makes `funk.Difference` return a
non-empty part. -/
theorem funkDifference_pos (x y : List Nat)
    (h : ∃ v, (v ∈ x ∧ v ∉ y) ∨ (v ∈ y ∧ v ∉ x)) :
    (funkDifference x y).1.length > 0 ∨ (funkDifference x y).2.length > 0 := by
  obtain ⟨v, ⟨hx, hny⟩ | ⟨hy, hnx⟩⟩ := h
  · exact Or.inl (List.length_pos.mpr
      (List.ne_nil_of_mem (List.mem_filter.mpr ⟨hx, by simpa using hny⟩)))
  · exact Or.inr (List.length_pos.mpr
      (List.ne_nil_of_mem (List.mem_filter.mpr ⟨hy, by simpa using hnx⟩)))

/-- Lists with the same members (in any order, duplicates allowed) make both
parts of `funk.Difference` empty. -/
theorem funkDifference_eq_nil (x y : List Nat) (h : ∀ v, v ∈ x ↔ v ∈ y) :
    ¬((funkDifference x y).1.length > 0 ∨ (funkDifference x y).2.length > 0) := by
  have h1 : (funkDifference x y).1 = [] :=
    List.filter_eq_nil_iff.mpr (fun a hax => by simpa using (h a).mp hax)
  have h2 : (funkDifference x y).2 = [] :=
    List.filter_eq_nil_iff.mpr (fun a hay => by simpa using (h a).mpr hay)
  simp [h1, h2]

/-- C3: on a self-targeted `UpdateUserById` (actor id equals the path id):
setting status to 2 is rejected; a role-id set differing from the actor's
current one (as a set) is rejected; a non-empty password is rejected;
and when the role-id set is identical (any order) with status not 2 and an
empty password the request succeeds and the actor's current password digest
is written through unchanged. -/
theorem C3_self_protection (crypto : Crypto) (st : St) (ctxUser0 : Option User)
    (actor : User) (st1 : St) (req : CreateUserRequest) (roles : List Role)
    (a t : Int) (userId : Int)
    (hres : GetCurrentUser st ctxUser0 = (actor, st1))
    (ha : funkMinInt (actor.roles.map (fun r => r.sort)) = some a)
    (ht : funkMinInt (roles.map (fun r => r.sort)) = some t)
    (hid : 0 < userId) (hself : userId = (actor.id : Int)) :
    (req.status = 2 →
      ctrlUpdateUserById crypto st userId ctxUser0 req (.ok roles)
        = (.fail "不能禁用自己", st1))
    ∧ (req.status ≠ 2 →
      (∃ v, (v ∈ req.roleIds ∧ v ∉ actor.roles.map (fun r => r.id))
          ∨ (v ∈ actor.roles.map (fun r => r.id) ∧ v ∉ req.roleIds)) →
      ctrlUpdateUserById crypto st userId ctxUser0 req (.ok roles)
        = (.fail "不能更改自己的角色", st1))
    ∧ (req.status ≠ 2 →
      (∀ v, v ∈ req.roleIds ↔ v ∈ actor.roles.map (fun r => r.id)) →
      req.password ≠ "" →
      ctrlUpdateUserById crypto st userId ctxUser0 req (.ok roles)
        = (.fail "请到个人中心修改自身密码", st1))
    ∧ (req.status ≠ 2 →
      (∀ v, v ∈ req.roleIds ↔ v ∈ actor.roles.map (fun r => r.id)) →
      req.password = "" → actor.password ≠ "" →
      (ctrlUpdateUserById crypto st userId ctxUser0 req (.ok roles)).1
        = .success "修改用户成功"
      ∧ (ctrlUpdateUserById crypto st userId ctxUser0 req (.ok roles)).2.db.map
            (fun u => (u.id, u.password))
        = st1.db.map (fun u =>
            (u.id, if u.id = userId.toNat then actor.password else u.password))) := by
  refine ⟨?_, ?_, ?_, ?_⟩
  · intro hst2
    simp only [ctrlUpdateUserById]
    rw [if_neg (by omega)]
    simp only [hres, ha, ht]
    rw [if_pos hself, if_pos hst2]
  · intro hst2 hdiff
    simp only [ctrlUpdateUserById]
    rw [if_neg (by omega)]
    simp only [hres, ha, ht]
    rw [if_pos hself, if_neg hst2, if_pos (funkDifference_pos _ _ hdiff)]
  · intro hst2 hsame hpw
    simp only [ctrlUpdateUserById]
    rw [if_neg (by omega)]
    simp only [hres, ha, ht]
    rw [if_pos hself, if_neg hst2, if_neg (funkDifference_eq_nil _ _ hsame),
      if_pos hpw]
  · intro hst2 hsame hpw hdigest
    have heq : ctrlUpdateUserById crypto st userId ctxUser0 req (.ok roles)
        = (.success "修改用户成功",
           (GetUserById
             (repoUpdateUserById st1 userId.toNat
               { username := req.username, password := actor.password,
                 mobile := req.mobile, avatar := req.avatar,
                 nickname := req.nickname, introduction := req.introduction,
                 status := req.status, creator := actor.username,
                 roles := roles, id := 0, createdAt := 0 })
             userId.toNat).2) := by
      simp only [ctrlUpdateUserById]
      rw [if_neg (by omega)]
      simp only [hres, ha, ht]
      rw [if_pos hself, if_neg hst2, if_neg (funkDifference_eq_nil _ _ hsame),
        if_neg (by simpa using hpw)]
    refine ⟨by rw [heq], ?_⟩
    rw [heq]
    show ((GetUserById _ _).2.db).map _ = _
    rw [getUserById_db]
    show (st1.db.map _).map _ = _
    rw [List.map_map]
    refine List.map_congr_left (fun u hu => ?_)
    by_cases hid' : u.id = userId.toNat
    · simp only [Function.comp_apply, beq_iff_eq, hid', if_pos, if_true]
      simp [applyUpdates, hdigest, hid']
    · simp only [Function.comp_apply, beq_iff_eq]
      rw [if_neg hid', if_neg hid']

/-- C3 witness: a concrete self-update with the identical role-id set, an
allowed status and an empty password succeeds and carries the digest
forward; the stored rows keep their ids and the actor row keeps its
digest. -/
theorem C3_self_protection_witness :
    (ctrlUpdateUserById cryptoW st0W 1 (some aliceW) reqSelfW (.ok [roleHigh])).1
      = .success "修改用户成功"
    ∧ (ctrlUpdateUserById cryptoW st0W 1 (some aliceW) reqSelfW
          (.ok [roleHigh])).2.db.map (fun u => (u.id, u.password))
      = [(1, "#a"), (2, "#b")] := by
  have h := ((C3_self_protection cryptoW st0W (some aliceW) aliceW st0W reqSelfW
    [roleHigh] 1 1 1 rfl rfl rfl (by decide) (by decide)).2.2.2
    (by decide) (by intro v; simp [reqSelfW, aliceW, roleHigh, zeroUser])
    rfl (by decide))
  refine ⟨h.1, ?_⟩
  rw [h.2]
  decide

/-- The store-level password update reports no error in this model. -/
theorem repoChangePwd_err (st : St) (n pw : String) :
    (repoChangePwd st n pw).1 = none := by
  unfold repoChangePwd
  cases h : cacheGet st.cache n <;> simp [h]

/-- The store after `ChangePwd` carries the new digest on every row with the
given username. -/
theorem repoChangePwd_db (st : St) (n pw : String) :
    (repoChangePwd st n pw).2.db
      = st.db.map (fun u => if u.username == n then { u with password := pw } else u) := by
  unfold repoChangePwd
  cases h : cacheGet st.cache n <;> simp [h]

/-- When the username is cached, `ChangePwd` rewrites that cache entry with
the new digest. -/
theorem repoChangePwd_cache_found (st : St) (n pw : String) (cu : User)
    (h : cacheGet st.cache n = some cu) :
    (repoChangePwd st n pw).2.cache = cacheSet st.cache n { cu with password := pw } := by
  unfold repoChangePwd
  simp [h]

/-- Rewriting the password of every row with a given username commutes with
looking that username up. -/
theorem find?_username_map (l : List User) (n pw : String) :
    (l.map (fun u => if u.username == n then { u with password := pw } else u)).find?
        (fun u => u.username == n)
      = (l.find? (fun u => u.username == n)).map
          (fun u => { u with password := pw }) := by
  rw [List.find?_map]
  have hp : ((fun u : User => u.username == n) ∘ fun u =>
      if u.username == n then { u with password := pw } else u)
      = fun u : User => u.username == n := by
    funext u
    by_cases h : u.username = n <;> simp [h]
  rw [hp]
  cases hfind : l.find? (fun u => u.username == n) with
  | none => rfl
  | some w =>
    have hw := List.find?_some hfind
    simp only [Option.map_some']
    rw [if_pos hw]

/-- When the username is not cached, `ChangePwd` refetches the (already
updated) row by username — without role preload — and caches it. -/
theorem repoChangePwd_cache_missing (st : St) (n pw : String)
    (h : cacheGet st.cache n = none) (w : User)
    (hw : st.db.find? (fun u => u.username == n) = some w) :
    (repoChangePwd st n pw).2.cache
      = cacheSet st.cache n { w with password := pw, roles := [] } := by
  unfold repoChangePwd
  rw [h]
  simp only [find?_username_map, hw, Option.map_some']

/-- C4 counterexample: with the actor absent from the cache, a wrong old
password is rejected and the store is untouched, but the identity cache is
mutated (read-through population), contradicting the claim that it is left
unchanged. -/
theorem C4_counterexample :
    (ctrlChangePwd cryptoW stMissW (some aliceW) "WRONG" "x").1 = .fail "原密码有误"
    ∧ (ctrlChangePwd cryptoW stMissW (some aliceW) "WRONG" "x").2.db = stMissW.db
    ∧ (ctrlChangePwd cryptoW stMissW (some aliceW) "WRONG" "x").2.cache
        ≠ stMissW.cache := by
  refine ⟨rfl, rfl, by decide⟩

/-- C4 amended: a wrong old password is rejected leaving the store unchanged
and mutating the cache at most by the actor's own read-through population;
a correct old password succeeds, persists the new digest on every row with
the actor's username, and synchronously rewrites or populates the cache
entry for that username so that an immediate cache get observes the new
digest. -/
theorem C4_change_password (crypto : Crypto) (st : St) (ctx : Option User)
    (actor : User) (st1 : St) (oldPw newPw : String)
    (hres : GetCurrentUser st ctx = (actor, st1)) :
    (crypto.comparePasswd actor.password oldPw = false →
      ctrlChangePwd crypto st ctx oldPw newPw = (.fail "原密码有误", st1)
      ∧ st1.db = st.db)
    ∧ (crypto.comparePasswd actor.password oldPw = true →
      (ctrlChangePwd crypto st ctx oldPw newPw).1 = .success "修改密码成功"
      ∧ (∀ u ∈ (ctrlChangePwd crypto st ctx oldPw newPw).2.db,
          u.username = actor.username → u.password = crypto.genPasswd newPw)
      ∧ (∀ cu, cacheGet st1.cache actor.username = some cu →
          cacheGet (ctrlChangePwd crypto st ctx oldPw newPw).2.cache actor.username
            = some { cu with password := crypto.genPasswd newPw })
      ∧ (cacheGet st1.cache actor.username = none →
          ∀ w, st1.db.find? (fun u => u.username == actor.username) = some w →
          ∃ cu, cacheGet (ctrlChangePwd crypto st ctx oldPw newPw).2.cache
                  actor.username = some cu
            ∧ cu.password = crypto.genPasswd newPw)) := by
  constructor
  · intro hc
    refine ⟨?_, ?_⟩
    · simp only [ctrlChangePwd, hres]
      rw [if_pos (by simp [hc])]
    · have h := getCurrentUser_db st ctx
      rw [hres] at h
      exact h
  · intro hc
    have hstep : ctrlChangePwd crypto st ctx oldPw newPw
        = (.success "修改密码成功",
           (repoChangePwd st1 actor.username (crypto.genPasswd newPw)).2) := by
      simp only [ctrlChangePwd, hres]
      rw [if_neg (by simp [hc]), repoChangePwd_err]
    refine ⟨by rw [hstep], ?_, ?_, ?_⟩
    · intro u hu hname
      rw [hstep] at hu
      rw [repoChangePwd_db] at hu
      obtain ⟨w, hw, rfl⟩ := List.mem_map.mp hu
      by_cases hwn : w.username = actor.username
      · simp [hwn]
      · rw [if_neg (by simpa using hwn)] at hname ⊢
        exact absurd hname hwn
    · intro cu hcu
      rw [hstep]
      rw [repoChangePwd_cache_found st1 actor.username (crypto.genPasswd newPw) cu hcu]
      exact cacheGet_cacheSet_self _ _ _
    · intro hmiss w hw
      rw [hstep]
      rw [repoChangePwd_cache_missing st1 actor.username (crypto.genPasswd newPw)
        hmiss w hw]
      exact ⟨_, cacheGet_cacheSet_self _ _ _, rfl⟩

/-- C4 witness: a concrete correct-old-password change succeeds and an
immediate cache get for the username returns the new digest. -/
theorem C4_change_password_witness :
    (ctrlChangePwd cryptoW st0W (some aliceW) "a" "newpw").1 = .success "修改密码成功"
    ∧ cacheGet (ctrlChangePwd cryptoW st0W (some aliceW) "a" "newpw").2.cache "alice"
        = some { aliceW with password := "#newpw" } := by
  have h := (C4_change_password cryptoW st0W (some aliceW) aliceW st0W
    "a" "newpw" rfl).2 (by decide)
  exact ⟨h.1, h.2.2.1 aliceW rfl⟩

/-- C5 counterexample: an admin (alice) updates another user (bob)
successfully, yet the identity-cache entry for bob still holds the
pre-update record while the store holds the new one — the other-user branch
performs no cache invalidation or refresh. -/
theorem C5_counterexample :
    (ctrlUpdateUserById cryptoW st0W 2 (some aliceW) reqBobW (.ok [roleMid])).1
      = .success "修改用户成功"
    ∧ cacheGet (ctrlUpdateUserById cryptoW st0W 2 (some aliceW) reqBobW
        (.ok [roleMid])).2.cache "bob" = some bobW
    ∧ ((ctrlUpdateUserById cryptoW st0W 2 (some aliceW) reqBobW
        (.ok [roleMid])).2.db.find? (fun u => u.id == 2)).map (fun u => u.nickname)
      = some "new"
    ∧ bobW.nickname = "old" :=
  ⟨rfl, rfl, rfl, rfl⟩

/-- C5 amended: only the self-update branch refreshes the identity cache
(through the `GetUserById` read-through after persisting, so the refetched
row is cached under its username); the other-user branch returns success
with the cache exactly as it was. -/
theorem C5_cache_refresh (crypto : Crypto) (st : St) (ctxUser0 : Option User)
    (actor : User) (st1 : St) (req : CreateUserRequest) (roles : List Role)
    (a t : Int) (userId : Int)
    (hres : GetCurrentUser st ctxUser0 = (actor, st1))
    (ha : funkMinInt (actor.roles.map (fun r => r.sort)) = some a)
    (ht : funkMinInt (roles.map (fun r => r.sort)) = some t)
    (hid : 0 < userId) :
    (userId ≠ (actor.id : Int) → a < t →
      (ctrlUpdateUserById crypto st userId ctxUser0 req (.ok roles)).1
        = .success "修改用户成功"
      ∧ (ctrlUpdateUserById crypto st userId ctxUser0 req (.ok roles)).2.cache
        = st1.cache)
    ∧ (userId = (actor.id : Int) → req.status ≠ 2 →
      (∀ v, v ∈ req.roleIds ↔ v ∈ actor.roles.map (fun r => r.id)) →
      req.password = "" →
      ∀ w, (ctrlUpdateUserById crypto st userId ctxUser0 req (.ok roles)).2.db.find?
            (fun u => u.id == userId.toNat && u.status == 1) = some w →
        cacheGet (ctrlUpdateUserById crypto st userId ctxUser0 req
            (.ok roles)).2.cache w.username = some w) := by
  constructor
  · intro hne hlt
    have heq : ctrlUpdateUserById crypto st userId ctxUser0 req (.ok roles)
        = (.success "修改用户成功",
           repoUpdateUserById st1 userId.toNat
             { username := req.username, password := crypto.genPasswd req.password,
               mobile := req.mobile, avatar := req.avatar,
               nickname := req.nickname, introduction := req.introduction,
               status := req.status, creator := actor.username,
               roles := roles, id := 0, createdAt := 0 }) := by
      simp only [ctrlUpdateUserById]
      rw [if_neg (by omega)]
      simp only [hres, ha, ht]
      rw [if_neg hne, if_neg (by omega)]
    rw [heq]
    exact ⟨rfl, rfl⟩
  · intro hself hst2 hsame hpw
    have heq : ctrlUpdateUserById crypto st userId ctxUser0 req (.ok roles)
        = (.success "修改用户成功",
           (GetUserById
             (repoUpdateUserById st1 userId.toNat
               { username := req.username, password := actor.password,
                 mobile := req.mobile, avatar := req.avatar,
                 nickname := req.nickname, introduction := req.introduction,
                 status := req.status, creator := actor.username,
                 roles := roles, id := 0, createdAt := 0 })
             userId.toNat).2) := by
      simp only [ctrlUpdateUserById]
      rw [if_neg (by omega)]
      simp only [hres, ha, ht]
      rw [if_pos hself, if_neg hst2, if_neg (funkDifference_eq_nil _ _ hsame),
        if_neg (by simpa using hpw)]
    rw [heq]
    intro w hw
    have hw' : (repoUpdateUserById st1 userId.toNat
        { username := req.username, password := actor.password,
          mobile := req.mobile, avatar := req.avatar,
          nickname := req.nickname, introduction := req.introduction,
          status := req.status, creator := actor.username,
          roles := roles, id := 0, createdAt := 0 }).db.find?
          (fun u => u.id == userId.toNat && u.status == 1) = some w := hw
    simp only [GetUserById, hw', Option.getD_some, Option.isSome_some]
    exact cacheGet_cacheSet_self _ _ _

/-- C5 witness: alice's concrete self-update refreshes the cache entry for
her username with the freshly fetched post-update record. -/
theorem C5_cache_refresh_witness :
    cacheGet (ctrlUpdateUserById cryptoW st0W 1 (some aliceW) reqSelfW
        (.ok [roleHigh])).2.cache "alice" = some aliceUpdatedW := by
  have h := (C5_cache_refresh cryptoW st0W (some aliceW) aliceW st0W reqSelfW
    [roleHigh] 1 1 1 rfl rfl rfl (by decide)).2 (by decide) (by decide)
    (by intro v; simp [reqSelfW, aliceW, roleHigh, zeroUser]) rfl
    aliceUpdatedW (by decide)
  exact h

/-- C6 counterexample: two states with the same backing store but different
cache contents make `ChangePwd` accept in one and reject in the other — the
accept/reject decision does not depend only on the digest held in the
store. -/
theorem C6_counterexample :
    (ctrlChangePwd cryptoW stStaleW (some aliceW) "old" "n").1 = .success "修改密码成功"
    ∧ (ctrlChangePwd cryptoW stMissW (some aliceW) "old" "n").1 = .fail "原密码有误"
    ∧ stStaleW.db = stMissW.db :=
  ⟨rfl, rfl, rfl⟩

/-- C6 amended: the old password is compared against the digest of the
actor record resolved by `GetCurrentUser` — the cached record when the
actor's username is cached, the store record only on a cache miss — never
against a caller-supplied digest: the rejection happens exactly when the
comparison against that resolved digest fails. -/
theorem C6_compare_resolved (crypto : Crypto) (st : St) (ctx : Option User)
    (actor : User) (st1 : St) (oldPw newPw : String)
    (hres : GetCurrentUser st ctx = (actor, st1)) :
    ((ctrlChangePwd crypto st ctx oldPw newPw).1 = .fail "原密码有误"
      ↔ crypto.comparePasswd actor.password oldPw = false)
    ∧ (∀ u cu, ctx = some u → cacheGet st.cache u.username = some cu →
        actor = cu) := by
  refine ⟨?_, ?_⟩
  · cases hc : crypto.comparePasswd actor.password oldPw with
    | false =>
      have heq : ctrlChangePwd crypto st ctx oldPw newPw = (.fail "原密码有误", st1) := by
        simp only [ctrlChangePwd, hres]
        rw [if_pos (by simp [hc])]
      simp [heq]
    | true =>
      have heq : (ctrlChangePwd crypto st ctx oldPw newPw).1 = .success "修改密码成功" := by
        have hstep : ctrlChangePwd crypto st ctx oldPw newPw
            = (.success "修改密码成功",
               (repoChangePwd st1 actor.username (crypto.genPasswd newPw)).2) := by
          simp only [ctrlChangePwd, hres]
          rw [if_neg (by simp [hc]), repoChangePwd_err]
        rw [hstep]
      simp [heq]
  · intro u cu hctx hcache
    subst hctx
    have hhit : GetCurrentUser st (some u) = (cu, st) := by
      simp [GetCurrentUser, hcache]
    rw [hhit] at hres
    exact ((Prod.ext_iff.mp hres).1).symm

/-- C6 witness: at the concrete stale-cache state the rejection is decided
by the cached digest. -/
theorem C6_compare_resolved_witness :
    ((ctrlChangePwd cryptoW stStaleW (some aliceW) "old" "n").1 = .fail "原密码有误"
      ↔ cryptoW.comparePasswd aliceStaleW.password "old" = false) :=
  (C6_compare_resolved cryptoW stStaleW (some aliceW) aliceStaleW stStaleW
    "old" "n" rfl).1

/-- C7: Login applies its checks in order: unknown username fails with
UserNotFound; then a status other than enabled fails with UserDisabled; then
the absence of any enabled role fails with AllRolesDisabled; then a digest
mismatch fails with WrongPassword while still returning the resolved record;
only when every check passes is the record returned without error. -/
theorem C7_login_checks (crypto : Crypto) (db : List User) (u : User) :
    (db.find? (fun x => x.username == u.username) = none →
      Login crypto db u = (none, some .userNotFound))
    ∧ (∀ f, db.find? (fun x => x.username == u.username) = some f →
      (f.status ≠ 1 → Login crypto db u = (none, some .userDisabled))
      ∧ (f.status = 1 → (∀ r ∈ f.roles, r.status ≠ 1) →
          Login crypto db u = (none, some .allRolesDisabled))
      ∧ (f.status = 1 → (∃ r ∈ f.roles, r.status = 1) →
          crypto.comparePasswd f.password u.password = false →
          Login crypto db u = (some f, some .wrongPassword))
      ∧ (f.status = 1 → (∃ r ∈ f.roles, r.status = 1) →
          crypto.comparePasswd f.password u.password = true →
          Login crypto db u = (some f, none))) := by
  constructor
  · intro h
    simp only [Login, h]
  · intro f hf
    have hdis : ∀ hs : f.status = 1, ¬ (f.status ≠ 1) := fun hs => by simp [hs]
    refine ⟨?_, ?_, ?_, ?_⟩
    · intro hs
      simp only [Login, hf]
      rw [if_pos hs]
    · intro hs hall
      have hany : ¬ (f.roles.any (fun r => r.status == 1) = true) := by
        simp only [List.any_eq_true, beq_iff_eq]
        push_neg
        exact hall
      simp only [Login, hf]
      rw [if_neg (hdis hs), if_pos hany]
    · intro hs hex hcmp
      have hany : f.roles.any (fun r => r.status == 1) = true := by
        simp only [List.any_eq_true, beq_iff_eq]
        exact hex
      simp only [Login, hf]
      rw [if_neg (hdis hs), if_neg (by simp [hany]), if_pos (by simp [hcmp])]
    · intro hs hex hcmp
      have hany : f.roles.any (fun r => r.status == 1) = true := by
        simp only [List.any_eq_true, beq_iff_eq]
        exact hex
      simp only [Login, hf]
      rw [if_neg (hdis hs), if_neg (by simp [hany]), if_neg (by simp [hcmp])]

/-- C7 witness: a login against an empty user table fails with
UserNotFound. -/
theorem C7_login_checks_witness :
    Login cryptoW [] { zeroUser with username := "x" }
      = (none, some .userNotFound) :=
  (C7_login_checks cryptoW [] { zeroUser with username := "x" }).1 rfl

/-- C9 counterexample: the repository batch delete does not return a
dedicated error value — it panics. -/
theorem C9_counterexample :
    repoBatchDeleteUserByIds [] = .panicked "implement me" :=
  rfl

/-- C9 amended: for every input the repository stub panics with "implement
me" instead of returning an error value, while the controller-level handler
is an empty no-op that performs no action, writes no response, and never
invokes the repository. -/
theorem C9_batch_delete_stub :
    (∀ ids : List String, repoBatchDeleteUserByIds ids = .panicked "implement me")
    ∧ (∀ st : St, ctrlBatchDeleteUserByIds st = (.silent, st)) :=
  ⟨fun _ => rfl, fun _ => rfl⟩

/-- C10: when no enabled user has the requested id, `GetUserById` still
writes the zero-value user record into the cache, keyed by its empty
username, and returns it alongside the error — the failed lookup is not
cache-state-preserving. -/
theorem C10_failed_lookup_caches_zero (st : St) (id : Nat)
    (h : st.db.find? (fun u => u.id == id && u.status == 1) = none) :
    GetUserById st id
      = ((zeroUser, some "record not found"),
         { st with cache := cacheSet st.cache "" zeroUser })
    ∧ cacheGet (GetUserById st id).2.cache "" = some zeroUser := by
  have heq : GetUserById st id
      = ((zeroUser, some "record not found"),
         { st with cache := cacheSet st.cache "" zeroUser }) := by
    simp only [GetUserById, h, Option.getD_none, Option.isSome_none]
    rfl
  exact ⟨heq, by rw [heq]; exact cacheGet_cacheSet_self _ _ _⟩

/-- C10 witness: a lookup on an empty table caches the zero user under the
empty username. -/
theorem C10_failed_lookup_caches_zero_witness :
    GetUserById { db := [], cache := [] } 7
      = ((zeroUser, some "record not found"),
         { db := [], cache := cacheSet [] "" zeroUser })
    ∧ cacheGet (GetUserById { db := [], cache := [] } 7).2.cache ""
        = some zeroUser :=
  C10_failed_lookup_caches_zero { db := [], cache := [] } 7 rfl

/-- C8: the list query counts the filtered rows as `total` before any
pagination; the returned rows are ordered by creation time descending; the
offset/limit window is applied exactly when both pageNum and pageSize are
positive, otherwise the whole filtered set is returned; and one row passes
the filter iff every non-empty (after trimming) string filter is a substring
of the corresponding field and a non-zero status filter matches exactly. -/
theorem C8_list_users (db : List User) (req : UserListRequest) :
    ((GetUsers db req).2 = (db.filter (userMatches req)).length)
    ∧ List.Sorted byCreatedDesc (GetUsers db req).1
    ∧ (0 < req.pageNum → 0 < req.pageSize →
        (GetUsers db req).1
          = ((sortByCreatedDesc (db.filter (userMatches req))).drop
              ((req.pageNum - 1) * req.pageSize)).take req.pageSize)
    ∧ (¬(0 < req.pageNum ∧ 0 < req.pageSize) →
        (GetUsers db req).1 = sortByCreatedDesc (db.filter (userMatches req))
        ∧ ∀ u, u ∈ (GetUsers db req).1 ↔ u ∈ db.filter (userMatches req))
    ∧ (∀ u, userMatches req u = true ↔
        ((strTrimSpace req.username ≠ "" →
            (strTrimSpace req.username).data <:+: u.username.data)
        ∧ (strTrimSpace req.nickname ≠ "" →
            (strTrimSpace req.nickname).data <:+: u.nickname.data)
        ∧ (strTrimSpace req.mobile ≠ "" →
            (strTrimSpace req.mobile).data <:+: u.mobile.data)
        ∧ (req.status ≠ 0 → u.status = req.status))) := by
  have hsorted : List.Sorted byCreatedDesc
      (sortByCreatedDesc (db.filter (userMatches req))) :=
    List.sorted_insertionSort byCreatedDesc _
  refine ⟨?_, ?_, ?_, ?_, ?_⟩
  · simp only [GetUsers]
    split <;> rfl
  · simp only [GetUsers]
    split
    · exact List.Pairwise.sublist
        ((List.take_sublist _ _).trans (List.drop_sublist _ _)) hsorted
    · exact hsorted
  · intro h1 h2
    simp only [GetUsers]
    rw [if_pos ⟨h1, h2⟩]
  · intro h
    simp only [GetUsers]
    rw [if_neg h]
    exact ⟨rfl, fun u => by simp [sortByCreatedDesc]⟩
  · intro u
    simp only [userMatches, Bool.and_eq_true, Bool.or_eq_true, beq_iff_eq,
      decide_eq_true_eq]
    tauto

/-- C8 witness: on a concrete four-row table whose usernames all contain the
trimmed filter, page 2 of size 1 returns exactly the second-newest row and
`total` is the full filtered count. -/
theorem C8_list_users_witness :
    (GetUsers dbListW reqListW).1
      = ((sortByCreatedDesc (dbListW.filter (userMatches reqListW))).drop
          ((reqListW.pageNum - 1) * reqListW.pageSize)).take reqListW.pageSize
    ∧ (GetUsers dbListW reqListW).2 = 4
    ∧ (GetUsers dbListW reqListW).1 = [listUser "u4" 3] := by
  have h := C8_list_users dbListW reqListW
  refine ⟨h.2.2.1 (by decide) (by decide), ?_, by decide⟩
  rw [h.1]
  decide

end GoWebMini
